import Mathlib

/-!
# Formal model of the static-site generator (`main.py`)

This file gives a shallow embedding, in Lean 4, of the content pipeline of
the static-site generator: front-matter splitting, page/config resolution,
page sorting, the square-crop policy, thumbnail generation, the custom
markdown renderer rules for links and images, and the page exporter.

Python integers are modelled by `Int`/`Nat`, Python floor division `//` by
`Int.fdiv`, fallible steps (exceptions) by `Option`/`Except`, the filesystem
by an association list from path to image dimensions, and external library
functions (mistune's `safe_url`/`safe_entity`/`striptags`, PyYAML's
`safe_load`) by function parameters constrained only by the documented
behaviour the code relies on.
-/

namespace SSG

/-! ## Crop policy (`calculate_crop`)

Translation of `calculate_crop(image, gravity)` from `main.py`.  The image
argument is replaced by its size `(width, height)`; the result is the
`(left, top, right, bottom)` crop box.  Python's `//` on integers is floor
division, i.e. `Int.fdiv`, and `-diff // 2` parses as `(-diff) // 2`. -/

def calculate_crop (width height : ℤ) (gravity : String) : ℤ × ℤ × ℤ × ℤ :=
  let diff := width - height
  if 0 < diff then -- horizontal
    if gravity = "start" then (0, 0, height, height)
    else if gravity = "end" then (diff, 0, diff + height, height)
    else (Int.fdiv diff 2, 0, Int.fdiv diff 2 + height, height)
  else if diff < 0 then -- vertical
    if gravity = "start" then (0, 0, width, width)
    else if gravity = "end" then (0, -diff, width, -diff + width)
    else (0, Int.fdiv (-diff) 2, width, Int.fdiv (-diff) 2 + width)
  else -- square
    (0, 0, width, height)

def cropLeft (c : ℤ × ℤ × ℤ × ℤ) : ℤ := c.1
def cropTop (c : ℤ × ℤ × ℤ × ℤ) : ℤ := c.2.1
def cropRight (c : ℤ × ℤ × ℤ × ℤ) : ℤ := c.2.2.1
def cropBottom (c : ℤ × ℤ × ℤ × ℤ) : ℤ := c.2.2.2

/-! ## Page sorting (`parse_config`, lines 130-136)

`parse_config` sorts the page list with
`sorted(pages, key=lambda p: p.date or datetime(1970, 1, 1, 0, 0, tzinfo=UTC),
reverse=True)`.  A page date coming from YAML (`date: 2023-01-01`) is a
`datetime.date`; the fallback key is a timezone-aware `datetime.datetime`.
CPython refuses to order `date` against `datetime` (and naive against aware
`datetime`), raising `TypeError`; the model makes the comparison partial. -/

/-- A value that can serve as the sort key in `parse_config`: either a
`datetime.date` (represented by its proleptic-Gregorian ordinal) or a
`datetime.datetime` (represented by a timestamp and its awareness flag). -/
inductive PyDateVal
  | date (ordinal : ℤ)
  | datetime (stamp : ℤ) (aware : Bool)
deriving DecidableEq

inductive PyError
  | typeError
deriving DecidableEq

/-- CPython's `<` on `date`/`datetime` values: `date` compares with `date`,
`datetime` with `datetime` of the same awareness; every mixed comparison
raises `TypeError`. -/
def pyLt : PyDateVal → PyDateVal → Except PyError Bool
  | .date a, .date b => .ok (decide (a < b))
  | .datetime a aw, .datetime b bw =>
      if aw = bw then .ok (decide (a < b)) else .error .typeError
  | _, _ => .error .typeError

/-- A page as far as the sorting step is concerned: its url and the optional
`date` attribute. -/
structure SortPage where
  url : String
  date : Option PyDateVal
deriving DecidableEq

/-- The sort key `p.date or datetime(1970, 1, 1, 0, 0, tzinfo=UTC)`. -/
def pageSortKey (p : SortPage) : PyDateVal :=
  p.date.getD (.datetime 0 true)

/-- Stable descending insertion: `x` is placed before the first element it
compares strictly greater than; each comparison can raise. -/
def insertDescBy (lt : α → α → Except PyError Bool) (x : α) :
    List α → Except PyError (List α)
  | [] => .ok [x]
  | y :: ys => do
      if (← lt x y) then
        let tail ← insertDescBy lt x ys
        pure (y :: tail)
      else
        pure (x :: y :: ys)

/-- `sorted(·, key=…, reverse=True)` as a stable descending sort whose
comparisons can raise `TypeError`. -/
def sortDescBy (lt : α → α → Except PyError Bool) :
    List α → Except PyError (List α)
  | [] => .ok []
  | x :: xs => do
      let rest ← sortDescBy lt xs
      insertDescBy lt x rest

/-- The sorting step of `parse_config`. -/
def sort_pages (ps : List SortPage) : Except PyError (List SortPage) :=
  sortDescBy (fun a b => pyLt (pageSortKey a) (pageSortKey b)) ps

/-! ## Front-matter splitting (`RE_FRONTMATTER`, `collect_frontmatter`)

`RE_FRONTMATTER` is
`^((-{3,})\n(?P<custom>.*?)\n(-{3,})\n)?(?P<content>.*)$` with `re.DOTALL`.
The model implements the backtracking semantics of this exact pattern:
the opening fence is a maximal run of at least three dashes followed by a
newline; the lazy `custom` group ends at the earliest newline that is
followed by a maximal run of at least three dashes and a newline; `content`
greedily takes the remainder (DOTALL).  The whole group is optional, and a
failed group match falls back to `custom = None`, `content =` whole text. -/

/-- Length of the leading run of dashes. -/
def dashCount : List Char → ℕ
  | '-' :: rest => dashCount rest + 1
  | _ => 0

/-- Drop the leading run of dashes. -/
def dropDashes : List Char → List Char
  | '-' :: rest => dropDashes rest
  | cs => cs

/-- Match `^(-{3,})\n`, returning the rest of the input.  The greedy dash run
can only be followed by a newline if the whole run is, so the run is maximal. -/
def openFence (cs : List Char) : Option (List Char) :=
  if 3 ≤ dashCount cs then
    match dropDashes cs with
    | '\n' :: rest => some rest
    | _ => none
  else none

/-- Match `\n(-{3,})\n` at the current position, returning the rest. -/
def closeFence (cs : List Char) : Option (List Char) :=
  match cs with
  | '\n' :: rest =>
      if 3 ≤ dashCount rest then
        match dropDashes rest with
        | '\n' :: rest2 => some rest2
        | _ => none
      else none
  | _ => none

/-- Lazy search for the closing fence: the `custom` group takes the shortest
prefix that is followed by `\n(-{3,})\n`; returns `(custom, remainder)`. -/
def findClose : List Char → Option (List Char × List Char)
  | [] => none
  | c :: rest =>
      match closeFence (c :: rest) with
      | some after => some ([], after)
      | none => (findClose rest).map (fun p => (c :: p.1, p.2))

/-- The optional fenced group of `RE_FRONTMATTER`: opening fence, lazy custom
region, closing fence. -/
def matchFenceGroup (cs : List Char) : Option (List Char × List Char) :=
  (openFence cs).bind findClose

/-- The full `RE_FRONTMATTER.match`: the fenced group is optional and the
`content` group (`.*` under DOTALL) takes the remainder, so a failed group
falls back to `custom = None` with the whole text as `content`.  The result
is `(custom group, content group)`. -/
def re_frontmatter_match (cs : List Char) :
    Option (Option (List Char) × List Char) :=
  match matchFenceGroup cs with
  | some (custom, rest) => some (some custom, rest)
  | none => some (none, cs)

/-- Abstract YAML documents, as far as `collect_frontmatter` observes them:
`null` is PyYAML's `None` result, `dict` a mapping, `other` any other value. -/
inductive Yaml
  | null
  | dict (entries : List (String × String))
  | other (tag : String)
deriving DecidableEq

/-- Python truthiness of a YAML document, as used by `safe_load(...) or {}`. -/
def Yaml.truthy : Yaml → Bool
  | .null => false
  | .dict es => !es.isEmpty
  | .other _ => true

/-- `x or {}`. -/
def orEmptyDict (y : Yaml) : Yaml := if y.truthy then y else .dict []

inductive FMError
  | matchFailed
  | yamlError
deriving DecidableEq

/-- Whether a string is blank (whitespace only); PyYAML's `safe_load` returns
`None` on such documents. -/
def isBlankChars (cs : List Char) : Bool :=
  cs.all (fun c => c == ' ' || c == '\t' || c == '\n' || c == '\r')

/-- `collect_frontmatter(raw_content)` from `main.py`: split on the regex,
replace a missing `custom` group by `""` (`or ""`), parse it as YAML
(`safe_load` is an external parameter; `.error` is a YAML parse error),
replace a falsy document by `{}` (`or {}`), and return custom and content. -/
def collect_frontmatter (safeLoad : String → Except Unit Yaml) (raw : String) :
    Except FMError (Yaml × String) :=
  match re_frontmatter_match raw.data with
  | none => .error .matchFailed
  | some (customOpt, content) =>
      match safeLoad (String.mk (customOpt.getD [])) with
      | .error _ => .error .yamlError
      | .ok y => .ok (orEmptyDict y, String.mk content)

/-- A concrete YAML loader used to instantiate theorems that quantify over
`safe_load`: blank documents give `None`, anything else an opaque scalar. -/
def safeLoadStub : String → Except Unit Yaml :=
  fun s => if isBlankChars s.data then .ok .null else .ok (.other s)

/-! ## Custom markdown renderer (`CustomRenderer.link` / `CustomRenderer.image`)

The mistune library functions `safe_url`, `safe_entity` and `striptags` are
external collaborators and appear as function parameters.  Python string
concatenation is `++`, Python's `in` on strings is substring containment,
and Python truthiness of the optional `title` makes `None` and `""` falsy. -/

/-- Substring test: does the haystack contain the pattern? -/
def listContains (pat : List Char) : List Char → Bool
  | [] => pat.isEmpty
  | c :: rest => pat.isPrefixOf (c :: rest) || listContains pat rest

/-- Python's `pat in s` on strings. -/
def strContains (s pat : String) : Bool := listContains pat.data s.data

/-- Python truthiness of the optional `title` argument. -/
def pyTruthy : Option String → Bool
  | none => false
  | some t => t != ""

/-- The part of the anchor tag `CustomRenderer.link` builds before the
external-link attributes: `<a href="..."` plus the optional title attribute. -/
def linkOpenTag (safeUrl safeEntity : String → String) (url : String)
    (title : Option String) : String :=
  let s := "<a href=\"" ++ safeUrl url ++ "\""
  if pyTruthy title then s ++ " title=\"" ++ safeEntity (title.getD "") ++ "\"" else s

/-- `CustomRenderer.link(text, url, title)` from `main.py`. -/
def link (safeUrl safeEntity : String → String) (text url : String)
    (title : Option String) : String :=
  let s := "<a href=\"" ++ safeUrl url ++ "\""
  let s := if pyTruthy title then
      s ++ " title=\"" ++ safeEntity (title.getD "") ++ "\"" else s
  let s := if strContains url "://" then
      s ++ " rel=\"noopener\" target=\"_blank\"" else s
  s ++ ">" ++ text ++ "</a>"

/-- Index of the last occurrence of `c`, or `-1` (Python `str.rfind`). -/
def rfindIdx (c : Char) (cs : List Char) : ℤ :=
  match cs.reverse.findIdx? (· == c) with
  | some i => (cs.length : ℤ) - 1 - (i : ℤ)
  | none => -1

/-- `os.path.splitext` (posixpath): split off the extension at the last dot,
provided it comes after the last separator and the base name is not made of
leading dots only. -/
def splitext (p : String) : String × String :=
  let cs := p.data
  let sepIndex := rfindIdx '/' cs
  let dotIndex := rfindIdx '.' cs
  if sepIndex < dotIndex then
    let filenameIndex := (sepIndex + 1).toNat
    if (List.range (dotIndex.toNat - filenameIndex)).any
        (fun k => cs.getD (filenameIndex + k) '.' != '.') then
      (String.mk (cs.take dotIndex.toNat), String.mk (cs.drop dotIndex.toNat))
    else (p, "")
  else (p, "")

/-- `CustomRenderer.image(text, url, title)` from `main.py`: strip the
extension from the (sanitised) url, emit an `<img>` for the `-w1024.webp`
variant with stripped alt text, title falling back to alt, lazy loading,
wrap it in a link to the full-size `.webp`, and emit the figure between
`</p>` and `<p>`. -/
def image (safeUrl safeEntity striptagsF : String → String) (text url : String)
    (title : Option String) : String :=
  let url2 := safeUrl url
  let stem := (splitext url2).1
  let alt := striptagsF text
  let s := "<img src=\"" ++ stem ++ "-w1024.webp\" alt=\"" ++ alt ++ "\""
  let s := s ++ " title=\"" ++
    safeEntity (if pyTruthy title then title.getD "" else alt) ++ "\""
  let s := s ++ " loading=\"lazy\" />"
  let s := link safeUrl safeEntity s (stem ++ ".webp") none
  "</p><figure>" ++ s ++ "<figcaption>" ++ alt ++ "</figcaption></figure><p>"

/-! ## PIL `Image.thumbnail` and the thumbnail generators

`Image.thumbnail(size)` shrinks an image in place so that it fits in the
bounding box, never upscaling, preserving the aspect ratio up to rounding:
the recomputed coordinate is the floor or the ceiling of the exact value,
whichever has the smaller error, and at least 1.  PIL computes with floats;
the model uses exact rationals. -/

/-- PIL's `round_aspect(number, key)`: of floor and ceiling, the one with the
smaller error (floor on ties, as Python `min`), and at least 1. -/
def round_aspect (q : ℚ) (err : ℤ → ℚ) : ℤ :=
  max (if err ⌊q⌋ ≤ err ⌈q⌉ then ⌊q⌋ else ⌈q⌉) 1

/-- `Image.thumbnail((x, y))` acting on the size `(w, h)`: no change when the
image already fits; otherwise shrink the coordinate that overflows the box's
aspect ratio. -/
def thumbnail (w h x y : ℕ) : ℕ × ℕ :=
  if w ≤ x ∧ h ≤ y then (w, h)
  else
    let aspect : ℚ := (w : ℚ) / (h : ℚ)
    if aspect ≤ (x : ℚ) / (y : ℚ) then
      ((round_aspect ((y : ℚ) * aspect)
          (fun n => |aspect - (n : ℚ) / (y : ℚ)|)).toNat, y)
    else
      (x, (round_aspect ((x : ℚ) / aspect)
          (fun n => if n = 0 then 0 else |aspect - (x : ℚ) / (n : ℚ)|)).toNat)

/-- The filesystem visible to the image transformers: a list of image files,
each with its pixel dimensions. -/
abbrev FS := List (String × ℕ × ℕ)

/-- First entry with the given name, if any (`Image.open`). -/
def fsLookup (fs : FS) (name : String) : Option (ℕ × ℕ) :=
  match fs with
  | [] => none
  | (n, d) :: rest => if n = name then some d else fsLookup rest name

/-- Delete every entry with the given name (`Path.unlink`, and the overwrite
half of `Image.save`). -/
def fsRemove (fs : FS) (name : String) : FS :=
  match fs with
  | [] => []
  | (n, d) :: rest =>
      if n = name then fsRemove rest name else (n, d) :: fsRemove rest name

/-- `Image.save`: (over)write a file with the given dimensions. -/
def fsSave (fs : FS) (name : String) (w h : ℕ) : FS :=
  (name, w, h) :: fsRemove fs name

/-- `generate_article_thumbnails(image_file)` from `main.py` over the model
filesystem: open the image (`none` models `FileNotFoundError`), shrink to
width at most `min(width, 1920)` (height box 9999) and save `<stem>.webp`,
shrink further to the `(1024, 9999)` box and save `<stem>-w1024.webp`, then
unlink the original. -/
def generate_article_thumbnails (fs : FS) (dir stem ext : String) : Option FS :=
  match fsLookup fs (dir ++ "/" ++ stem ++ ext) with
  | none => none
  | some (w, h) =>
      let s1 := thumbnail w h (min w 1920) 9999
      let fs1 := fsSave fs (dir ++ "/" ++ stem ++ ".webp") s1.1 s1.2
      let s2 := thumbnail s1.1 s1.2 1024 9999
      let fs2 := fsSave fs1 (dir ++ "/" ++ stem ++ "-w1024.webp") s2.1 s2.2
      some (fsRemove fs2 (dir ++ "/" ++ stem ++ ext))

/-- `generate_banner_thumbnails(image_file, gravity)` from `main.py`: shrink
and save `<stem>.webp`, crop square by gravity, shrink to the `(720, 720)`
box and save `<stem>-w720.webp`, then unlink the original. -/
def generate_banner_thumbnails (fs : FS) (dir stem ext gravity : String) :
    Option FS :=
  match fsLookup fs (dir ++ "/" ++ stem ++ ext) with
  | none => none
  | some (w, h) =>
      let s1 := thumbnail w h (min w 1920) 9999
      let fs1 := fsSave fs (dir ++ "/" ++ stem ++ ".webp") s1.1 s1.2
      let c := calculate_crop (s1.1 : ℤ) (s1.2 : ℤ) gravity
      let cw := (cropRight c - cropLeft c).toNat
      let ch := (cropBottom c - cropTop c).toNat
      let s2 := thumbnail cw ch 720 720
      let fs2 := fsSave fs1 (dir ++ "/" ++ stem ++ "-w720.webp") s2.1 s2.2
      some (fsRemove fs2 (dir ++ "/" ++ stem ++ ext))

/-- An image reference extracted from a page: the page's directory and the
referenced file's stem and extension. -/
structure ImgRef where
  dir : String
  stem : String
  ext : String
deriving DecidableEq

def ImgRef.full (r : ImgRef) : String := r.dir ++ "/" ++ r.stem ++ r.ext

/-- The inline-image loop of `transform_pages`: each reference is transformed,
and a `FileNotFoundError` (`none`) is caught and ignored. -/
def transform_article_images (fs : FS) : List ImgRef → FS
  | [] => fs
  | r :: rest =>
      match generate_article_thumbnails fs r.dir r.stem r.ext with
      | some fs' => transform_article_images fs' rest
      | none => transform_article_images fs rest

/-- The banner loop of `transform_pages`: same `try/except FileNotFoundError`
pattern around `generate_banner_thumbnails`. -/
def transform_banner_images (fs : FS) : List (ImgRef × String) → FS
  | [] => fs
  | (r, grav) :: rest =>
      match generate_banner_thumbnails fs r.dir r.stem r.ext grav with
      | some fs' => transform_banner_images fs' rest
      | none => transform_banner_images fs rest

/-! ## Page resolution (`parse_config`, lines 114-128) and export
(`export_pages`)

Paths are plain strings; `pathlib`'s `suffix`/`with_suffix` are modelled on
the final path component with `pathlib`'s rules (a leading dot or a trailing
dot does not count as a suffix). -/

/-- Python `url.lstrip("/")`. -/
def lstripSlashes : List Char → List Char
  | '/' :: rest => lstripSlashes rest
  | cs => cs

/-- The final path component (`Path.name`, for the paths arising here). -/
def afterLastSlash (cs : List Char) : List Char :=
  (cs.reverse.takeWhile (fun c => c != '/')).reverse

/-- `Path.suffix`: the extension of the final component; the dot must be
neither the first nor the last character of the name. -/
def pathSuffix (p : String) : String :=
  let name := afterLastSlash p.data
  let i := rfindIdx '.' name
  if 0 < i ∧ i < (name.length : ℤ) - 1 then String.mk (name.drop i.toNat)
  else ""

/-- `Path.with_suffix(suf)`: drop the old suffix (a suffix of the whole
string, since it is one of the final component) and append the new one. -/
def withSuffix (p suf : String) : String :=
  let old := pathSuffix p
  String.mk (p.data.take (p.data.length - old.length)) ++ suf

/-- A page as far as resolution and export are concerned: the url from the
config, and the resolved source and destination paths (both unset when the
source file does not exist). -/
structure RPage where
  url : String
  src : Option String
  dst : Option String
deriving DecidableEq

/-- Per-page resolution from `parse_config`: the expected source is the
url path with suffix `.md` when the url ends in `.html`, else `index.md`
inside the url directory; when that file exists, `dst` is the source with
suffix `.html`. -/
def resolve_page (files : List String) (targetDir url : String) : RPage :=
  let path := targetDir ++ "/" ++ String.mk (lstripSlashes url.data)
  let src := if pathSuffix path = ".html" then withSuffix path ".md"
             else path ++ "/index.md"
  if files.contains src then
    { url := url, src := some src, dst := some (withSuffix src ".html") }
  else
    { url := url, src := none, dst := none }

/-- The page-resolution loop of `parse_config` (before sorting): every
descriptor stays in the list, resolved or not. -/
def resolve_pages (files : List String) (targetDir : String)
    (urls : List String) : List RPage :=
  urls.map (resolve_page files targetDir)

/-- The write/delete effects of `export_pages`. -/
inductive ExportOp
  | write (dst : String)
  | unlink (src : String)
deriving DecidableEq

/-- `export_pages` from `main.py`: pages without a source are skipped;
otherwise the rendered page is written to `dst` and the source deleted. -/
def export_pages : List RPage → List ExportOp
  | [] => []
  | p :: rest =>
      match p.src with
      | none => export_pages rest
      | some s => .write (p.dst.getD "") :: .unlink s :: export_pages rest

end SSG

/-! ## Theorems -/

namespace SSG

/-- **C2.** For every width `W`, height `H` and gravity string, `calculate_crop`
returns a square region of side `min W H`; for `W = H` it is the full image
regardless of gravity; for `W > H`, gravity `"start"` anchors the square at
`x = 0`, `"end"` at `x = W - H`, and any other gravity centres it at
`x = (W - H) // 2`; for `W < H` the same holds symmetrically on the y axis.
The function is a pure function of `(width, height, gravity)`, and every
gravity outside `{"start", "end"}` takes the centred branch. -/
theorem calculate_crop_spec (W H : ℤ) (g : String) :
    (cropRight (calculate_crop W H g) - cropLeft (calculate_crop W H g) = min W H ∧
     cropBottom (calculate_crop W H g) - cropTop (calculate_crop W H g) = min W H) ∧
    (W = H → calculate_crop W H g = (0, 0, W, H)) ∧
    (H < W →
      (g = "start" → calculate_crop W H g = (0, 0, H, H)) ∧
      (g = "end" → calculate_crop W H g = (W - H, 0, W, H)) ∧
      (g ≠ "start" → g ≠ "end" →
        calculate_crop W H g =
          (Int.fdiv (W - H) 2, 0, Int.fdiv (W - H) 2 + H, H))) ∧
    (W < H →
      (g = "start" → calculate_crop W H g = (0, 0, W, W)) ∧
      (g = "end" → calculate_crop W H g = (0, H - W, W, H)) ∧
      (g ≠ "start" → g ≠ "end" →
        calculate_crop W H g =
          (0, Int.fdiv (H - W) 2, W, Int.fdiv (H - W) 2 + W))) := by
  have hfd : ∀ a : ℤ, Int.fdiv a 2 = a / 2 := fun a => Int.fdiv_eq_ediv a (by norm_num)
  simp only [calculate_crop, cropLeft, cropTop, cropRight, cropBottom]
  split_ifs with h1 h2 h3 h4 h5 h6
  · -- W > H, gravity "start"
    refine ⟨⟨by simp only []; omega, by simp only []; omega⟩,
      fun hEq => by simp only [Prod.mk.injEq, and_true, true_and]; omega,
      fun _ => ⟨fun _ => rfl,
        fun hg => absurd (h2.symm.trans hg) (by decide),
        fun hg1 _ => absurd h2 hg1⟩,
      fun hgt => absurd hgt (by omega)⟩
  · -- W > H, gravity "end"
    refine ⟨⟨by simp only []; omega, by simp only []; omega⟩,
      fun hEq => by simp only [Prod.mk.injEq, and_true, true_and]; omega,
      fun _ => ⟨fun hg => absurd hg h2,
        fun _ => by simp only [Prod.mk.injEq, and_true, true_and]; omega,
        fun _ hg2 => absurd h3 hg2⟩,
      fun hgt => absurd hgt (by omega)⟩
  · -- W > H, centred
    refine ⟨⟨by simp only [hfd]; omega, by simp only [hfd]; omega⟩,
      fun hEq => absurd hEq (by omega),
      fun _ => ⟨fun hg => absurd hg h2, fun hg => absurd hg h3, fun _ _ => rfl⟩,
      fun hgt => absurd hgt (by omega)⟩
  · -- W < H, gravity "start"
    refine ⟨⟨by simp only []; omega, by simp only []; omega⟩,
      fun hEq => by simp only [Prod.mk.injEq, and_true, true_and]; omega,
      fun hlt => absurd hlt (by omega),
      fun _ => ⟨fun _ => rfl,
        fun hg => absurd (h5.symm.trans hg) (by decide),
        fun hg1 _ => absurd h5 hg1⟩⟩
  · -- W < H, gravity "end"
    refine ⟨⟨by simp only []; omega, by simp only []; omega⟩,
      fun hEq => by simp only [Prod.mk.injEq, and_true, true_and]; omega,
      fun hlt => absurd hlt (by omega),
      fun _ => ⟨fun hg => absurd hg h5,
        fun _ => by simp only [Prod.mk.injEq, and_true, true_and]; omega,
        fun _ hg2 => absurd h6 hg2⟩⟩
  · -- W < H, centred
    refine ⟨⟨by simp only [neg_sub, hfd]; omega, by simp only [neg_sub, hfd]; omega⟩,
      fun hEq => absurd hEq (by omega),
      fun hlt => absurd hlt (by omega),
      fun _ => ⟨fun hg => absurd hg h5, fun hg => absurd hg h6,
        fun _ _ => by simp only [neg_sub]⟩⟩
  · -- square
    refine ⟨⟨by simp only []; omega, by simp only []; omega⟩,
      fun _ => rfl,
      fun hlt => absurd hlt (by omega),
      fun hgt => absurd hgt (by omega)⟩

/-- **C9.** For every width `W ≥ 1`, height `H ≥ 1` and every gravity value,
the rectangle `(left, top, right, bottom)` returned by `calculate_crop` lies
inside the image bounds: `0 ≤ left ≤ right ≤ W` and `0 ≤ top ≤ bottom ≤ H`. -/
theorem calculate_crop_in_bounds (W H : ℤ) (g : String) (hW : 1 ≤ W) (hH : 1 ≤ H) :
    0 ≤ cropLeft (calculate_crop W H g) ∧
    cropLeft (calculate_crop W H g) ≤ cropRight (calculate_crop W H g) ∧
    cropRight (calculate_crop W H g) ≤ W ∧
    0 ≤ cropTop (calculate_crop W H g) ∧
    cropTop (calculate_crop W H g) ≤ cropBottom (calculate_crop W H g) ∧
    cropBottom (calculate_crop W H g) ≤ H := by
  have hfd : ∀ a : ℤ, Int.fdiv a 2 = a / 2 := fun a => Int.fdiv_eq_ediv a (by norm_num)
  simp only [calculate_crop, cropLeft, cropTop, cropRight, cropBottom]
  split_ifs <;> simp only [neg_sub, hfd] <;> omega

/-- Witness for `calculate_crop_in_bounds`: the crop box of a 30×20 image with
gravity `"end"` is `(10, 0, 30, 20)`, which lies inside the image bounds. -/
theorem calculate_crop_in_bounds_witness :
    calculate_crop 30 20 "end" = (10, 0, 30, 20) ∧
    (0 ≤ cropLeft (calculate_crop 30 20 "end") ∧
     cropLeft (calculate_crop 30 20 "end") ≤ cropRight (calculate_crop 30 20 "end") ∧
     cropRight (calculate_crop 30 20 "end") ≤ 30 ∧
     0 ≤ cropTop (calculate_crop 30 20 "end") ∧
     cropTop (calculate_crop 30 20 "end") ≤ cropBottom (calculate_crop 30 20 "end") ∧
     cropBottom (calculate_crop 30 20 "end") ≤ 20) :=
  ⟨by decide, calculate_crop_in_bounds 30 20 "end" (by decide) (by decide)⟩

/-- Witness for `calculate_crop_spec`: for a 30×20 image with gravity
`"start"`, the crop anchors the 20×20 square at `x = 0`. -/
theorem calculate_crop_spec_witness :
    calculate_crop 30 20 "start" = (0, 0, 20, 20) :=
  ((calculate_crop_spec 30 20 "start").2.2.1 (by decide)).1 rfl

/-- **C1** (code bug in `parse_config`): with one page dated `2023-01-01`
(whose YAML value is a `datetime.date`, ordinal 738521) and one page with no
date (whose sort key is the fallback aware
`datetime.datetime(1970, 1, 1, tzinfo=UTC)`), the sorting step raises
`TypeError` — CPython refuses to order `date` against `datetime` — so
`parse_config` crashes instead of returning the dated page first. -/
theorem sort_pages_mixed_dates_typeerror :
    sort_pages
        [{ url := "/dated.html", date := some (.date 738521) },
         { url := "/undated.html", date := none }] =
      .error .typeError := rfl

/-- **C3.** `collect_frontmatter`: when the text has no leading fence of
three-or-more dashes the regex group cannot match; whenever the group fails
the custom data is the empty mapping `{}` and the body is the entire input;
when a fence is present the fenced region is handed to the YAML parser
(a blank or empty region yields `None`, hence `{}` after `or {}`) and the
remainder after the closing fence is the body. -/
theorem collect_frontmatter_spec
    (safeLoad : String → Except Unit Yaml)
    (hblank : ∀ s : String, isBlankChars s.data = true → safeLoad s = .ok .null)
    (raw : String) :
    (openFence raw.data = none → matchFenceGroup raw.data = none) ∧
    (matchFenceGroup raw.data = none →
      collect_frontmatter safeLoad raw = .ok (.dict [], raw)) ∧
    (∀ custom rest, matchFenceGroup raw.data = some (custom, rest) →
      (∀ y, safeLoad (String.mk custom) = .ok y →
        collect_frontmatter safeLoad raw = .ok (orEmptyDict y, String.mk rest)) ∧
      (isBlankChars custom = true →
        collect_frontmatter safeLoad raw = .ok (.dict [], String.mk rest))) := by
  refine ⟨?_, ?_, ?_⟩
  · intro h
    simp [matchFenceGroup, h]
  · intro h
    have h0 : safeLoad "" = .ok .null := hblank "" rfl
    simp [collect_frontmatter, re_frontmatter_match, h, h0, orEmptyDict, Yaml.truthy]
  · intro custom rest h
    refine ⟨fun y hy => ?_, fun hb => ?_⟩
    · simp [collect_frontmatter, re_frontmatter_match, h, hy]
    · have h0 : safeLoad (String.mk custom) = .ok .null := hblank (String.mk custom) hb
      simp [collect_frontmatter, re_frontmatter_match, h, h0, orEmptyDict, Yaml.truthy]

/-- Witness for `collect_frontmatter_spec`: with the stub loader, the document
`"---\na: 1\n---\nbody"` splits into the YAML region `"a: 1"` and body
`"body"`. -/
theorem collect_frontmatter_spec_witness :
    collect_frontmatter safeLoadStub "---\na: 1\n---\nbody" =
      .ok (.other "a: 1", "body") :=
  ((collect_frontmatter_spec safeLoadStub
      (fun _ hs => by simp [safeLoadStub, hs]) "---\na: 1\n---\nbody").2.2
      "a: 1".data "body".data (by decide)).1 (.other "a: 1") rfl

/-- **C10.** The front-matter regex matches every input: the fenced group is
optional and the `content` group matches anything, so the splitting step of
`collect_frontmatter` never fails; the only possible failure is the YAML
parse of the fenced region. -/
theorem re_frontmatter_match_total (safeLoad : String → Except Unit Yaml) :
    (∀ cs : List Char, (re_frontmatter_match cs).isSome = true) ∧
    (∀ raw : String, collect_frontmatter safeLoad raw ≠ .error .matchFailed) := by
  constructor
  · intro cs
    unfold re_frontmatter_match
    rcases matchFenceGroup cs with _ | ⟨custom, rest⟩ <;> rfl
  · intro raw
    rcases h : matchFenceGroup raw.data with _ | ⟨custom, rest⟩ <;>
      simp only [collect_frontmatter, re_frontmatter_match, h] <;>
      rcases safeLoad _ with _ | y <;> simp

/-- **C5.** For every link rendered by `CustomRenderer.link`: if the target
url contains `"://"` the emitted anchor carries
` rel="noopener" target="_blank"` right after the href/title attributes; if
not, the anchor consists of exactly the href/title attributes and carries
neither. -/
theorem link_spec (safeUrl safeEntity : String → String) (text url : String)
    (title : Option String) :
    (strContains url "://" = true →
      link safeUrl safeEntity text url title =
        linkOpenTag safeUrl safeEntity url title ++
          " rel=\"noopener\" target=\"_blank\"" ++ ">" ++ text ++ "</a>") ∧
    (strContains url "://" = false →
      link safeUrl safeEntity text url title =
        linkOpenTag safeUrl safeEntity url title ++ ">" ++ text ++ "</a>") := by
  constructor <;> intro h <;> simp [link, linkOpenTag, h]

/-- Witness for `link_spec`: an absolute url gets the `rel`/`target`
attributes, a relative one does not. -/
theorem link_spec_witness :
    (strContains "https://x.org" "://" = true ∧
      link id id "t" "https://x.org" none =
        linkOpenTag id id "https://x.org" none ++
          " rel=\"noopener\" target=\"_blank\"" ++ ">" ++ "t" ++ "</a>") ∧
    (strContains "/rel/path" "://" = false ∧
      link id id "t" "/rel/path" none =
        linkOpenTag id id "/rel/path" none ++ ">" ++ "t" ++ "</a>") :=
  ⟨⟨by decide, (link_spec id id "t" "https://x.org" none).1 (by decide)⟩,
   ⟨by decide, (link_spec id id "t" "/rel/path" none).2 (by decide)⟩⟩

/-- **C6.** `CustomRenderer.image` strips the url's extension and emits an
`<img>` whose `src` is `<stem>-w1024.webp`, with `alt` the HTML-stripped
link text, `title` the given title or falling back to the alt text, and
`loading="lazy"`; the `<img>` is wrapped in a link to the full-size
`<stem>.webp`, inside a `<figure>` with a `<figcaption>` echoing the alt
text, and the block is emitted between `</p>` and `<p>`. -/
theorem image_spec (safeUrl safeEntity striptagsF : String → String)
    (text url : String) (title : Option String) :
    image safeUrl safeEntity striptagsF text url title =
      "</p><figure>" ++
        link safeUrl safeEntity
          ("<img src=\"" ++ (splitext (safeUrl url)).1 ++ "-w1024.webp\" alt=\"" ++
            striptagsF text ++ "\"" ++ " title=\"" ++
            safeEntity (if pyTruthy title then title.getD "" else striptagsF text) ++
            "\"" ++ " loading=\"lazy\" />")
          ((splitext (safeUrl url)).1 ++ ".webp") none ++
        "<figcaption>" ++ striptagsF text ++ "</figcaption></figure><p>" := rfl

/-- **C7.** A missing image file does not fail the build: the inline-image
loop and the banner loop both skip a reference whose file is absent (no
variant is produced for it, the filesystem is untouched by it) and continue
with the remaining references. -/
theorem transform_missing_image_skipped (fs : FS) (r : ImgRef) (grav : String)
    (rest : List ImgRef) (brest : List (ImgRef × String))
    (h : fsLookup fs r.full = none) :
    transform_article_images fs (r :: rest) = transform_article_images fs rest ∧
    transform_banner_images fs ((r, grav) :: brest) =
      transform_banner_images fs brest := by
  rw [ImgRef.full] at h
  constructor
  · simp [transform_article_images, generate_article_thumbnails, h]
  · simp [transform_banner_images, generate_banner_thumbnails, h]

/-- Witness for `transform_missing_image_skipped`: on an empty filesystem a
reference to `out/img.png` is skipped by both loops. -/
theorem transform_missing_image_skipped_witness :
    transform_article_images [] [⟨"out", "img", ".png"⟩] =
        transform_article_images [] [] ∧
    transform_banner_images [] [(⟨"out", "img", ".png"⟩, "start")] =
        transform_banner_images [] [] :=
  transform_missing_image_skipped [] ⟨"out", "img", ".png"⟩ "start" [] [] rfl

/-- **C8.** Page resolution keeps every config page in the list (resolved or
not); a page whose resolved source exists gets `dst` equal to the source with
its suffix replaced by `.html`; `export_pages` skips pages without a source
(writing and deleting nothing for them), and every write/unlink it performs
belongs to a page that has a source. -/
theorem pages_resolution_export_spec (files : List String) (targetDir : String)
    (urls : List String) :
    ((resolve_pages files targetDir urls).map RPage.url = urls) ∧
    (∀ p ∈ resolve_pages files targetDir urls, ∀ s, p.src = some s →
      files.contains s = true ∧ p.dst = some (withSuffix s ".html")) ∧
    (∀ (p : RPage) (rest : List RPage), p.src = none →
      export_pages (p :: rest) = export_pages rest) ∧
    (∀ (pages : List RPage) (op : ExportOp), op ∈ export_pages pages →
      ∃ p, p ∈ pages ∧ (∃ s, p.src = some s) ∧
        (op = .write (p.dst.getD "") ∨ op = .unlink (p.src.getD ""))) := by
  have hurl : ∀ u, (resolve_page files targetDir u).url = u := by
    intro u
    simp only [resolve_page]
    split_ifs <;> rfl
  refine ⟨?_, ?_, ?_, ?_⟩
  · rw [resolve_pages, List.map_map]
    have : RPage.url ∘ resolve_page files targetDir = id := funext hurl
    rw [this, List.map_id]
  · intro p hp s hs
    rcases List.mem_map.mp hp with ⟨u, _, rfl⟩
    revert hs
    simp only [resolve_page]
    split_ifs with h1 h2 h3 <;> intro hs <;>
      first
        | (obtain rfl := Option.some.inj hs; exact ⟨by assumption, rfl⟩)
        | exact absurd hs (by simp)
  · intro p rest hp
    simp [export_pages, hp]
  · intro pages
    induction pages with
    | nil => intro op h; simp [export_pages] at h
    | cons p rest ih =>
        intro op hop
        rcases hsrc : p.src with _ | s
        · simp only [export_pages, hsrc] at hop
          rcases ih op hop with ⟨q, hq, hqs, hor⟩
          exact ⟨q, List.mem_cons_of_mem _ hq, hqs, hor⟩
        · simp only [export_pages, hsrc, List.mem_cons] at hop
          rcases hop with rfl | hop
          · exact ⟨p, List.mem_cons_self _ _, ⟨s, hsrc⟩, Or.inl rfl⟩
          · rcases hop with rfl | hop
            · refine ⟨p, List.mem_cons_self _ _, ⟨s, hsrc⟩, Or.inr ?_⟩
              rw [hsrc]
              rfl
            · rcases ih op hop with ⟨q, hq, hqs, hor⟩
              exact ⟨q, List.mem_cons_of_mem _ hq, hqs, hor⟩

/-- Witness for `pages_resolution_export_spec`: the config url
`/blog/post.html` resolves to source `out/blog/post.md` (which exists) and
destination `out/blog/post.html`, and the url survives resolution. -/
theorem pages_resolution_export_spec_witness :
    (resolve_pages ["out/blog/post.md"] "out" ["/blog/post.html"]).map RPage.url =
        ["/blog/post.html"] ∧
    (["out/blog/post.md"] : List String).contains "out/blog/post.md" = true ∧
    (resolve_page ["out/blog/post.md"] "out" "/blog/post.html").dst =
        some (withSuffix "out/blog/post.md" ".html") :=
  have h := pages_resolution_export_spec ["out/blog/post.md"] "out" ["/blog/post.html"]
  have h2 := h.2.1 (resolve_page ["out/blog/post.md"] "out" "/blog/post.html")
    (by decide) "out/blog/post.md" rfl
  ⟨h.1, h2.1, h2.2⟩

/-! ### Helper lemmas for the thumbnail model -/

theorem round_aspect_ge_one (q : ℚ) (err : ℤ → ℚ) : 1 ≤ round_aspect q err :=
  le_max_right _ _

theorem round_aspect_close (q : ℚ) (err : ℤ → ℚ) (hq : 0 < q) :
    |(round_aspect q err : ℚ) - q| ≤ 1 := by
  unfold round_aspect
  have hfl := Int.floor_le q
  have hfl2 := Int.lt_floor_add_one q
  have hcl := Int.le_ceil q
  have hcl2 := Int.ceil_lt_add_one q
  have hcpos : 0 < ⌈q⌉ := Int.ceil_pos.mpr hq
  split_ifs with hc
  · rcases le_or_lt 1 ⌊q⌋ with hf | hf
    · rw [max_eq_left hf, abs_le]
      constructor <;> linarith
    · have hf0 : ⌊q⌋ ≤ 0 := by omega
      have hf0q : ((⌊q⌋ : ℤ) : ℚ) ≤ 0 := by exact_mod_cast hf0
      rw [max_eq_right (by omega), abs_le]
      constructor <;> push_cast <;> linarith
  · rw [max_eq_left (by omega), abs_le]
    constructor <;> linarith

theorem thumbnail_fst_le (w h x y : ℕ) (hx : 1 ≤ x) (hy : 1 ≤ y) :
    (thumbnail w h x y).1 ≤ x := by
  simp only [thumbnail]
  split_ifs with hfit hasp
  · exact hfit.1
  · have hy0 : (0 : ℚ) < (y : ℚ) := by exact_mod_cast hy
    have hql : (y : ℚ) * ((w : ℚ) / (h : ℚ)) ≤ (x : ℚ) := by
      calc (y : ℚ) * ((w : ℚ) / (h : ℚ))
          ≤ (y : ℚ) * ((x : ℚ) / (y : ℚ)) :=
            mul_le_mul_of_nonneg_left hasp (le_of_lt hy0)
        _ = (x : ℚ) := mul_div_cancel₀ _ (ne_of_gt hy0)
    have hceil : ⌈(y : ℚ) * ((w : ℚ) / (h : ℚ))⌉ ≤ (x : ℤ) := by
      rw [Int.ceil_le]
      exact_mod_cast hql
    have hfloor : ⌊(y : ℚ) * ((w : ℚ) / (h : ℚ))⌋ ≤ (x : ℤ) :=
      le_trans (Int.floor_le_ceil _) hceil
    simp only []
    rw [Int.toNat_le]
    unfold round_aspect
    apply max_le
    · split_ifs <;> assumption
    · exact_mod_cast hx
  · exact le_refl x

theorem thumbnail_pos (w h x y : ℕ) (hw : 1 ≤ w) (hh : 1 ≤ h)
    (hx : 1 ≤ x) (hy : 1 ≤ y) :
    1 ≤ (thumbnail w h x y).1 ∧ 1 ≤ (thumbnail w h x y).2 := by
  simp only [thumbnail]
  split_ifs with hfit hasp
  · exact ⟨hw, hh⟩
  · constructor
    · have := round_aspect_ge_one ((y : ℚ) * ((w : ℚ) / (h : ℚ)))
        (fun n => |(w : ℚ) / (h : ℚ) - (n : ℚ) / (y : ℚ)|)
      simp only []
      omega
    · exact hy
  · constructor
    · exact hx
    · have := round_aspect_ge_one ((x : ℚ) / ((w : ℚ) / (h : ℚ)))
        (fun n => if n = 0 then 0 else |(w : ℚ) / (h : ℚ) - (x : ℚ) / (n : ℚ)|)
      simp only []
      omega

theorem thumbnail_aspect_close (w h x y : ℕ) (hw : 1 ≤ w) (hh : 1 ≤ h)
    (hx : 1 ≤ x) (hy : 1 ≤ y) :
    |((thumbnail w h x y).1 : ℤ) * (h : ℤ) -
        (w : ℤ) * ((thumbnail w h x y).2 : ℤ)| ≤ max (w : ℤ) (h : ℤ) := by
  have hw0 : (0 : ℚ) < (w : ℚ) := by exact_mod_cast hw
  have hh0 : (0 : ℚ) < (h : ℚ) := by exact_mod_cast hh
  have hx0 : (0 : ℚ) < (x : ℚ) := by exact_mod_cast hx
  have hy0 : (0 : ℚ) < (y : ℚ) := by exact_mod_cast hy
  have haspect : (0 : ℚ) < (w : ℚ) / (h : ℚ) := div_pos hw0 hh0
  simp only [thumbnail]
  split_ifs with hfit hasp
  · simp only []
    rw [mul_comm (w : ℤ) (h : ℤ), sub_self, abs_zero]
    omega
  · -- the width is recomputed, the height is the box height y
    set q : ℚ := (y : ℚ) * ((w : ℚ) / (h : ℚ)) with hqdef
    set n : ℤ := round_aspect q (fun n => |(w : ℚ) / (h : ℚ) - (n : ℚ) / (y : ℚ)|)
      with hndef
    have hq : 0 < q := mul_pos hy0 haspect
    have hclose : |(n : ℚ) - q| ≤ 1 := round_aspect_close q _ hq
    have hn1 : 1 ≤ n := round_aspect_ge_one q _
    have hqh : q * (h : ℚ) = (y : ℚ) * (w : ℚ) := by
      rw [hqdef]
      field_simp
    have hsub : (n : ℚ) * (h : ℚ) - (w : ℚ) * (y : ℚ) =
        ((n : ℚ) - q) * (h : ℚ) := by
      rw [sub_mul, hqh]
      ring
    have hQ : |(n : ℚ) * (h : ℚ) - (w : ℚ) * (y : ℚ)| ≤ (h : ℚ) := by
      calc |(n : ℚ) * (h : ℚ) - (w : ℚ) * (y : ℚ)|
          = |(n : ℚ) - q| * |(h : ℚ)| := by rw [hsub, abs_mul]
        _ = |(n : ℚ) - q| * (h : ℚ) := by rw [abs_of_nonneg (le_of_lt hh0)]
        _ ≤ 1 * (h : ℚ) := mul_le_mul_of_nonneg_right hclose (le_of_lt hh0)
        _ = (h : ℚ) := one_mul _
    have hZ : |n * (h : ℤ) - (w : ℤ) * (y : ℤ)| ≤ (h : ℤ) := by
      have : ((|n * (h : ℤ) - (w : ℤ) * (y : ℤ)| : ℤ) : ℚ) ≤ ((h : ℤ) : ℚ) := by
        rw [Int.cast_abs]
        push_cast
        exact hQ
      exact_mod_cast this
    simp only []
    rw [Int.toNat_of_nonneg (by omega : (0 : ℤ) ≤ n)]
    omega
  · -- the height is recomputed, the width is the box width x
    set q : ℚ := (x : ℚ) / ((w : ℚ) / (h : ℚ)) with hqdef
    set m : ℤ := round_aspect q
        (fun n => if n = 0 then 0 else |(w : ℚ) / (h : ℚ) - (x : ℚ) / (n : ℚ)|)
      with hmdef
    have hq : 0 < q := div_pos hx0 haspect
    have hclose : |(m : ℚ) - q| ≤ 1 := round_aspect_close q _ hq
    have hm1 : 1 ≤ m := round_aspect_ge_one q _
    have hqw : q * (w : ℚ) = (x : ℚ) * (h : ℚ) := by
      rw [hqdef]
      field_simp
    have hsub : (x : ℚ) * (h : ℚ) - (w : ℚ) * (m : ℚ) =
        (q - (m : ℚ)) * (w : ℚ) := by
      rw [sub_mul, hqw]
      ring
    have hQ : |(x : ℚ) * (h : ℚ) - (w : ℚ) * (m : ℚ)| ≤ (w : ℚ) := by
      calc |(x : ℚ) * (h : ℚ) - (w : ℚ) * (m : ℚ)|
          = |q - (m : ℚ)| * |(w : ℚ)| := by rw [hsub, abs_mul]
        _ = |(m : ℚ) - q| * (w : ℚ) := by
            rw [abs_sub_comm, abs_of_nonneg (le_of_lt hw0)]
        _ ≤ 1 * (w : ℚ) := mul_le_mul_of_nonneg_right hclose (le_of_lt hw0)
        _ = (w : ℚ) := one_mul _
    have hZ : |(x : ℤ) * (h : ℤ) - (w : ℤ) * m| ≤ (w : ℤ) := by
      have : ((|(x : ℤ) * (h : ℤ) - (w : ℤ) * m| : ℤ) : ℚ) ≤ ((w : ℤ) : ℚ) := by
        rw [Int.cast_abs]
        push_cast
        exact hQ
      exact_mod_cast this
    simp only []
    rw [Int.toNat_of_nonneg (by omega : (0 : ℤ) ≤ m)]
    omega

/-! ### Helper lemmas for the model filesystem -/

theorem fsLookup_fsRemove (fs : FS) (n m : String) :
    fsLookup (fsRemove fs n) m = if n = m then none else fsLookup fs m := by
  induction fs with
  | nil =>
      simp only [fsRemove, fsLookup]
      split <;> rfl
  | cons e rest ih =>
      obtain ⟨k, d⟩ := e
      by_cases hkn : k = n <;> by_cases hnm : n = m <;>
        simp only [fsRemove, fsLookup, hkn, hnm, if_pos, if_neg, ih] <;>
        simp_all [fsLookup]

theorem fsLookup_fsSave (fs : FS) (n m : String) (w h : ℕ) :
    fsLookup (fsSave fs n w h) m =
      if n = m then some (w, h) else fsLookup fs m := by
  simp only [fsSave, fsLookup, fsLookup_fsRemove]
  split_ifs <;> rfl

/-- Counterexample to C4 as stated: an image of size 100×3000 fits both
bounding boxes, so `generate_article_thumbnails` saves a full-size variant
`img.webp` that keeps its 3000-pixel long edge — larger than 1920.  Only the
width is capped at 1920. -/
theorem generate_article_thumbnails_long_edge_counterexample :
    generate_article_thumbnails [("d/img.png", 100, 3000)] "d" "img" ".png" =
      some [("d/img-w1024.webp", 100, 3000), ("d/img.webp", 100, 3000)] ∧
    fsLookup [("d/img-w1024.webp", 100, 3000), ("d/img.webp", 100, 3000)]
        "d/img.webp" = some (100, 3000) ∧
    ¬ (max 100 3000 ≤ 1920) :=
  ⟨rfl, rfl, by decide⟩

/-- **C4** (amended): for every inline content image that exists on disk (with
dimensions at least 1×1, and whose name does not collide with the derived
variant names), `generate_article_thumbnails` produces a full-size variant
`<stem>.webp` at most 1920 px wide and a secondary variant `<stem>-w1024.webp`
at most 1024 px wide — each step preserving the aspect ratio up to one pixel
of rounding — and then removes the original image file. -/
theorem generate_article_thumbnails_spec (fs fs' : FS) (dir stem ext : String)
    (w h w1 h1 w2 h2 : ℕ)
    (hw : 1 ≤ w) (hh : 1 ≤ h)
    (hfound : fsLookup fs (dir ++ "/" ++ stem ++ ext) = some (w, h))
    (hs1 : thumbnail w h (min w 1920) 9999 = (w1, h1))
    (hs2 : thumbnail w1 h1 1024 9999 = (w2, h2))
    (hgen : generate_article_thumbnails fs dir stem ext = some fs')
    (hne1 : dir ++ "/" ++ stem ++ ".webp" ≠ dir ++ "/" ++ stem ++ ext)
    (hne2 : dir ++ "/" ++ stem ++ "-w1024.webp" ≠ dir ++ "/" ++ stem ++ ext)
    (hne3 : dir ++ "/" ++ stem ++ "-w1024.webp" ≠ dir ++ "/" ++ stem ++ ".webp") :
    fsLookup fs' (dir ++ "/" ++ stem ++ ".webp") = some (w1, h1) ∧
    fsLookup fs' (dir ++ "/" ++ stem ++ "-w1024.webp") = some (w2, h2) ∧
    fsLookup fs' (dir ++ "/" ++ stem ++ ext) = none ∧
    w1 ≤ 1920 ∧ w2 ≤ 1024 ∧
    |(w1 : ℤ) * (h : ℤ) - (w : ℤ) * (h1 : ℤ)| ≤ max (w : ℤ) (h : ℤ) ∧
    |(w2 : ℤ) * (h1 : ℤ) - (w1 : ℤ) * (h2 : ℤ)| ≤ max (w1 : ℤ) (h1 : ℤ) := by
  have hmin : 1 ≤ min w 1920 := by omega
  have hpos1 := thumbnail_pos w h (min w 1920) 9999 hw hh hmin (by norm_num)
  rw [hs1] at hpos1
  simp only [generate_article_thumbnails, hfound, hs1] at hgen
  rw [hs2] at hgen
  obtain rfl := Option.some.inj hgen
  refine ⟨?_, ?_, ?_, ?_, ?_, ?_, ?_⟩
  · rw [fsLookup_fsRemove, if_neg (fun hEq => hne1 hEq.symm),
      fsLookup_fsSave, if_neg hne3, fsLookup_fsSave, if_pos rfl]
  · rw [fsLookup_fsRemove, if_neg (fun hEq => hne2 hEq.symm),
      fsLookup_fsSave, if_pos rfl]
  · rw [fsLookup_fsRemove, if_pos rfl]
  · have := thumbnail_fst_le w h (min w 1920) 9999 hmin (by norm_num)
    rw [hs1] at this
    omega
  · have := thumbnail_fst_le w1 h1 1024 9999 (by norm_num) (by norm_num)
    rw [hs2] at this
    exact this
  · have := thumbnail_aspect_close w h (min w 1920) 9999 hw hh hmin (by norm_num)
    rw [hs1] at this
    exact this
  · have := thumbnail_aspect_close w1 h1 1024 9999 hpos1.1 hpos1.2
      (by norm_num) (by norm_num)
    rw [hs2] at this
    exact this

/-- Witness for `generate_article_thumbnails_spec`: a 1000×800 image
`d/pic.png` already fits both boxes, so both variants keep its size and the
original is removed. -/
theorem generate_article_thumbnails_spec_witness :
    fsLookup [("d/pic-w1024.webp", 1000, 800), ("d/pic.webp", 1000, 800)]
        ("d" ++ "/" ++ "pic" ++ ".webp") = some (1000, 800) ∧
    fsLookup [("d/pic-w1024.webp", 1000, 800), ("d/pic.webp", 1000, 800)]
        ("d" ++ "/" ++ "pic" ++ "-w1024.webp") = some (1000, 800) ∧
    fsLookup [("d/pic-w1024.webp", 1000, 800), ("d/pic.webp", 1000, 800)]
        ("d" ++ "/" ++ "pic" ++ ".png") = none ∧
    1000 ≤ 1920 ∧ 1000 ≤ 1024 ∧
    |(1000 : ℤ) * (800 : ℤ) - (1000 : ℤ) * (800 : ℤ)| ≤ max (1000 : ℤ) (800 : ℤ) ∧
    |(1000 : ℤ) * (800 : ℤ) - (1000 : ℤ) * (800 : ℤ)| ≤ max (1000 : ℤ) (800 : ℤ) :=
  generate_article_thumbnails_spec
    [("d/pic.png", 1000, 800)]
    [("d/pic-w1024.webp", 1000, 800), ("d/pic.webp", 1000, 800)]
    "d" "pic" ".png" 1000 800 1000 800 1000 800
    (by decide) (by decide) rfl (by decide) (by decide) rfl
    (by decide) (by decide) (by decide)

end SSG
